import Mathlib

/- Formal model of src/realesrgan/utils.py (classes RealESRGANer and PrefetchReader).
   Machine integers are modelled as Nat, pixel samples and network weights as Rat.
   Images inside the tiler are modelled as functions from coordinates to samples;
   flat pixel buffers are modelled as lists of rationals. -/

/-- A flat pixel buffer (contents of one numpy array / torch tensor). -/
abbrev Arr : Type := List ℚ

/-- A two dimensional image: row index, column index, sample value. -/
abbrev Img : Type := ℕ → ℕ → ℚ

/-- The four inference backends selectable at construction (utils.py line 51 and the
dispatch branches at lines 73-152, 231-254, 263-266, 384-393). -/
inductive Backend where
  | torch
  | onnx
  | triton
  | huggingface
deriving DecidableEq

/- ------------------------------------------------------------------ -/
/- Tiler geometry, from RealESRGANer.tile_process (utils.py 256-335). -/
/- ------------------------------------------------------------------ -/

/-- Line 275: tiles_x = math.ceil(width / tile_size), the ceiling division. -/
def tiles_x (width tile_size : ℕ) : ℕ := (width + tile_size - 1) / tile_size

/-- Line 276: tiles_y = math.ceil(height / tile_size). -/
def tiles_y (height tile_size : ℕ) : ℕ := (height + tile_size - 1) / tile_size

/-- Lines 282, 285: input_start_x = ofs_x = x * tile_size. -/
def input_start_x (tile_size x : ℕ) : ℕ := x * tile_size

/-- Line 286: input_end_x = min(ofs_x + tile_size, width). -/
def input_end_x (tile_size width x : ℕ) : ℕ := min (x * tile_size + tile_size) width

/-- Lines 283, 287: input_start_y = ofs_y = y * tile_size. -/
def input_start_y (tile_size y : ℕ) : ℕ := y * tile_size

/-- Line 288: input_end_y = min(ofs_y + tile_size, height). -/
def input_end_y (tile_size height y : ℕ) : ℕ := min (y * tile_size + tile_size) height

/-- Line 316: output_start_x = input_start_x * scale. -/
def output_start_x (tile_size scale x : ℕ) : ℕ := input_start_x tile_size x * scale

/-- Line 317: output_end_x = input_end_x * scale. -/
def output_end_x (tile_size width scale x : ℕ) : ℕ := input_end_x tile_size width x * scale

/-- Line 318: output_start_y = input_start_y * scale. -/
def output_start_y (tile_size scale y : ℕ) : ℕ := input_start_y tile_size y * scale

/-- Line 319: output_end_y = input_end_y * scale. -/
def output_end_y (tile_size height scale y : ℕ) : ℕ := input_end_y tile_size height y * scale

/-- Lines 279-280: the nested loops, y outer and x inner, so the visit order over the
tile grid is row major. -/
def tileVisitList (tx ty : ℕ) : List (ℕ × ℕ) :=
  (List.range ty).flatMap fun y => (List.range tx).map fun x => (x, y)

/-- The two failure modes of tile_process: the explicit NotImplementedError raised at
lines 263-266 for the onnx and triton backends, and the unbound local output_tile
that is hit at line 330 when the very first tile raised RuntimeError at line 310. -/
inductive TileErr where
  | unsupported
  | nameError
deriving DecidableEq

/-- The loop body of tile_process (utils.py 279-335), one recursion step per tile,
in the row-major visit order.  State carried across iterations: the output
accumulator (self.output), the Python local variable output_tile (None while it has
never been assigned, and holding its previous, stale value after a RuntimeError is
caught at lines 311-312), and the number of net_g inference calls made so far.
The net argument models self.net_g: none models a raised RuntimeError. -/
def tileLoop (scale tile_size tile_pad height width : ℕ) (net : Img → Option Img)
    (img : Img) : List (ℕ × ℕ) → Img → Option Img → ℕ → Except TileErr Img × ℕ
  | [], acc, _, calls => (Except.ok acc, calls)
  | (x, y) :: rest, acc, var, calls =>
      -- lines 291-294: the padded input area, clamped to the image bounds
      let start_x_pad := input_start_x tile_size x - tile_pad
      let end_x_pad := min (input_end_x tile_size width x + tile_pad) width
      let start_y_pad := input_start_y tile_size y - tile_pad
      let end_y_pad := min (input_end_y tile_size height y + tile_pad) height
      -- lines 300-305: input_tile = self.img[:, :, start_y_pad:end_y_pad, start_x_pad:end_x_pad]
      let input_tile : Img := fun i j => img (start_y_pad + i) (start_x_pad + j)
      -- lines 308-312: output_tile = self.net_g(input_tile); a RuntimeError is caught
      -- and printed, leaving the local output_tile at its previous value
      let var2 : Option Img :=
        match net input_tile with
        | some o => some o
        | none => var
      match var2 with
      | none =>
          -- line 330 with output_tile never assigned: UnboundLocalError aborts the call
          (Except.error TileErr.nameError, calls + 1)
      | some output_tile =>
          -- lines 322-325: offsets of the usable area inside the raw tile output
          let start_x_tile := (input_start_x tile_size x - start_x_pad) * scale
          let start_y_tile := (input_start_y tile_size y - start_y_pad) * scale
          -- lines 328-335: copy the usable area into self.output
          let acc2 : Img := fun i j =>
            if output_start_y tile_size scale y ≤ i ∧ i < output_end_y tile_size height scale y ∧
               output_start_x tile_size scale x ≤ j ∧ j < output_end_x tile_size width scale x then
              output_tile (start_y_tile + (i - output_start_y tile_size scale y))
                (start_x_tile + (j - output_start_x tile_size scale x))
            else acc i j
          tileLoop scale tile_size tile_pad height width net img rest acc2 var2 (calls + 1)

/-- RealESRGANer.tile_process (utils.py 256-335).  Returns the final accumulator
(or the error that aborted the call) together with the number of inference calls
made.  Lines 263-266 reject the onnx and triton backends before anything else;
line 274 pre-initializes the accumulator to zeros (start with black image). -/
def tile_process (b : Backend) (scale tile_size tile_pad height width : ℕ)
    (net : Img → Option Img) (img : Img) : Except TileErr Img × ℕ :=
  if b = Backend.onnx ∨ b = Backend.triton then
    (Except.error TileErr.unsupported, 0)
  else
    tileLoop scale tile_size tile_pad height width net img
      (tileVisitList (tiles_x width tile_size) (tiles_y height tile_size))
      (fun _ _ => 0) none 0

/-- Reads one pixel of the accumulator produced by tile_process, none if the call
aborted with an error. -/
def evalTile (r : Except TileErr Img × ℕ) (i j : ℕ) : Option ℚ :=
  match r.1 with
  | Except.ok f => some (f i j)
  | Except.error _ => none

/-- True when tile_process aborted with the unbound local output_tile. -/
def isNameErr (r : Except TileErr Img × ℕ) : Bool :=
  match r.1 with
  | Except.error TileErr.nameError => true
  | _ => false

/-- Concrete 1 x 2 input image whose sample at row i, column j is j. -/
def c3img : Img := fun _ j => (j : ℚ)

/-- Concrete backend used to exhibit the stale-copy behaviour: inference succeeds
with a constant-one output exactly when the tile content at (0,0) is 0, and raises
RuntimeError otherwise. -/
def c3net : Img → Option Img :=
  fun t => if t 0 0 = 0 then some (fun _ _ => (1 : ℚ)) else none

/-- A backend that always raises RuntimeError. -/
def c3netFail : Img → Option Img := fun _ => none

/- ------------------------------------------------------------------------- -/
/- Padding bookkeeping, from pre_process (200-227) and post_process (337-356). -/
/- ------------------------------------------------------------------------- -/

/-- The instance fields consumed by post_process: pre_pad and scale from the
constructor (lines 59, 62), and mod_scale, mod_pad_h, mod_pad_w recorded by
pre_process (lines 214-224). -/
structure PadSizeState where
  pre_pad : ℕ
  scale : ℕ
  mod_scale : Option ℕ
  mod_pad_h : ℕ
  mod_pad_w : ℕ

/-- Lines 214-217: mod_scale is 2 when scale is 2, 4 when scale is 1, otherwise it
keeps its initial value None (line 63). -/
def modScaleOf (scale : ℕ) : Option ℕ :=
  if scale = 2 then some 2 else if scale = 1 then some 4 else none

/-- Lines 219-224: the minimal extra pad making len a multiple of m. -/
def modPadFor (m len : ℕ) : ℕ := if len % m = 0 then 0 else m - len % m

/-- The spatial-size effect of RealESRGANer.pre_process (utils.py 200-227): a
reflect pad of pre_pad pixels on bottom and right when pre_pad is nonzero
(lines 210-211), then the alignment pad on bottom and right (lines 213-227).
Returns the recorded padding state and the padded height and width. -/
def pre_process_size (scale pre_pad h w : ℕ) : PadSizeState × ℕ × ℕ :=
  let h1 := if pre_pad ≠ 0 then h + pre_pad else h
  let w1 := if pre_pad ≠ 0 then w + pre_pad else w
  match modScaleOf scale with
  | some m =>
      let mph := modPadFor m h1
      let mpw := modPadFor m w1
      (⟨pre_pad, scale, some m, mph, mpw⟩, h1 + mph, w1 + mpw)
  | none => (⟨pre_pad, scale, none, 0, 0⟩, h1, w1)

/-- The spatial-size effect of RealESRGANer.post_process (utils.py 337-356) on a
backend output of size hout x wout: first the alignment pad scaled by scale is
cropped from bottom and right (lines 339-346), then the pre-pad scaled by scale
(lines 348-355). -/
def post_process_size (st : PadSizeState) (hout wout : ℕ) : ℕ × ℕ :=
  let p1 :=
    match st.mod_scale with
    | some _ => (hout - st.mod_pad_h * st.scale, wout - st.mod_pad_w * st.scale)
    | none => (hout, wout)
  if st.pre_pad ≠ 0 then
    (p1.1 - st.pre_pad * st.scale, p1.2 - st.pre_pad * st.scale)
  else p1

/- ------------------------------------------------------------- -/
/- Deep network interpolation, RealESRGANer.dni (utils.py 154-164). -/
/- ------------------------------------------------------------- -/

/-- A checkpoint parameter mapping: ordered key and value pairs.  Parameter tensors
are modelled elementwise by a single rational sample. -/
abbrev StateDict : Type := List (String × ℚ)

/-- Python dict access d[k]: the value of the first binding of k, if any. -/
def lookupSD (d : StateDict) (k : String) : Option ℚ :=
  (d.find? fun kv => kv.1 == k).map Prod.snd

/-- RealESRGANer.dni (utils.py 154-164): iterates over the items of net_a and
replaces every value v_a by dni_weight[0] * v_a + dni_weight[1] * net_b[k]
(line 163), returning the updated net_a.  A key of net_a missing from net_b is a
Python KeyError, modelled as none. -/
def dni (net_a net_b : StateDict) (w0 w1 : ℚ) : Option StateDict :=
  net_a.mapM fun kv => (lookupSD net_b kv.1).map fun vb => (kv.1, w0 * kv.2 + w1 * vb)

/- ----------------------------------------------------------------- -/
/- Bit-depth selection and re-quantization, enhance (362-368, 463-466). -/
/- ----------------------------------------------------------------- -/

/-- Lines 363-367: max_range is 65535 when the maximum sample exceeds 256, else 255. -/
def maxRangeOf (maxVal : ℚ) : ℕ := if 256 < maxVal then 65535 else 255

/-- Line 368: img = img / max_range. -/
def imgNormalize (maxVal : ℚ) (v : ℚ) : ℚ := v / (maxRangeOf maxVal : ℚ)

/-- numpy .round(): round half to even. -/
def roundHalfEven (q : ℚ) : ℤ :=
  if q - (⌊q⌋ : ℚ) = 1 / 2 then (if ⌊q⌋ % 2 = 0 then ⌊q⌋ else ⌊q⌋ + 1) else round q

/-- Line 464: (output_img * 65535.0).round().astype(np.uint16); the cast takes the
value modulo 2^16. -/
def quantU16 (v : ℚ) : ℕ := (roundHalfEven (v * 65535)).toNat % 65536

/-- Line 466: (output_img * 255.0).round().astype(np.uint8); the cast takes the
value modulo 2^8. -/
def quantU8 (v : ℚ) : ℕ := (roundHalfEven (v * 255)).toNat % 256

/- --------------------------------------------------------- -/
/- Output-scale override, enhance (utils.py 468-476).          -/
/- --------------------------------------------------------- -/

/-- Python int() applied to a rational: truncation toward zero. -/
def pyInt (q : ℚ) : ℤ := Int.tdiv q.num (q.den : ℤ)

/-- Whether pre_process (utils.py 200-227) completes without raising on an
h x w input.  Reflect padding (torch F.pad as well as np.pad on the numpy path)
raises a runtime error when a requested pad is not smaller than the corresponding
input dimension, so line 211 requires pre_pad < h and pre_pad < w when pre_pad is
nonzero, and lines 225-227 require the computed mod pads to be smaller than the
dimensions of the already pre-padded image. -/
def pre_process_ok (scale pre_pad h w : ℕ) : Bool :=
  (if pre_pad ≠ 0 then decide (pre_pad < h) && decide (pre_pad < w) else true)
  &&
  (let h1 := if pre_pad ≠ 0 then h + pre_pad else h
   let w1 := if pre_pad ≠ 0 then w + pre_pad else w
   match modScaleOf scale with
   | some m => decide (modPadFor m h1 < h1) && decide (modPadFor m w1 < w1)
   | none => true)

/-- The final spatial size returned by enhance (utils.py 358-478), none when the
call raises inside pre_process because a reflect pad does not fit.  When the pads
fit, the image reaching line 468 has size (h_input * scale, w_input * scale) by
the pre_process/post_process size round trip.  Lines 468-476: when outscale is
set and differs from float(scale), cv2.resize is asked for the size
(int(w_input * outscale), int(h_input * outscale)). -/
def enhanceOutputSize (h_input w_input scale pre_pad : ℕ) (outscale : Option ℚ) :
    Option (ℕ × ℕ) :=
  if pre_process_ok scale pre_pad h_input w_input then
    match outscale with
    | none => some (h_input * scale, w_input * scale)
    | some o =>
        if o ≠ (scale : ℚ) then
          some ((pyInt ((h_input : ℚ) * o)).toNat, (pyInt ((w_input : ℚ) * o)).toNat)
        else some (h_input * scale, w_input * scale)
  else none

/- ----------------------------------------------------------------- -/
/- Weight key resolution in the torch constructor (utils.py 105-110).  -/
/- ----------------------------------------------------------------- -/

/-- A loaded checkpoint: a mapping from top-level keys to parameter mappings. -/
abbrev Checkpoint : Type := List (String × StateDict)

/-- Python containment test: k in loadnet. -/
def containsKeyCP (cp : Checkpoint) (k : String) : Bool :=
  cp.any fun kv => kv.1 == k

/-- Python dict access loadnet[k]: first binding of k, if any. -/
def lookupCP (cp : Checkpoint) (k : String) : Option StateDict :=
  (cp.find? fun kv => kv.1 == k).map Prod.snd

/-- Lines 106-109: keyname is params_ema when that key is present, else params. -/
def keynameFor (cp : Checkpoint) : String :=
  if containsKeyCP cp "params_ema" then "params_ema" else "params"

/-- Line 110: model.load_state_dict(loadnet[keyname]).  Access to a missing key is
a Python KeyError; the specification names this failure ModelLoadError. -/
def loadWeights (cp : Checkpoint) : Except String StateDict :=
  match lookupCP cp (keynameFor cp) with
  | some sd => Except.ok sd
  | none => Except.error "ModelLoadError"

/- -------------------------------------------------- -/
/- PrefetchReader (utils.py 481-508).                   -/
/- -------------------------------------------------- -/

/-- PrefetchReader.run (utils.py 494-499): the producer pushes imread(p) for every
path p of img_list in order onto the FIFO queue and finally pushes the sentinel
None.  The result is the full sequence of queue items in push order; imread
returning none models cv2.imread failing to decode. -/
def prefetchQueue (imread : String → Option Arr) (img_list : List String) :
    List (Option Arr) :=
  img_list.map imread ++ [none]

/-- Iterating the reader (utils.py 501-508): each call takes the next queue item;
None raises StopIteration, anything else is yielded. -/
def prefetchIterate : List (Option Arr) → List Arr
  | [] => []
  | none :: _ => []
  | some a :: rest => a :: prefetchIterate rest

/- ------------------------------------------------------------------- -/
/- Heap model of enhance (utils.py 358-478) for the frame property.      -/
/- ------------------------------------------------------------------- -/

/-- The heap: every live pixel buffer, indexed by allocation order. -/
abbrev Heap : Type := List Arr

/-- A reference into the heap. -/
abbrev Ref : Type := ℕ

/-- Allocate a fresh buffer at the end of the heap. -/
def halloc (h : Heap) (a : Arr) : Heap × Ref := (h ++ [a], h.length)

/-- Read a buffer. -/
def hread (h : Heap) (r : Ref) : Arr := h.getD r []

/-- Overwrite an existing buffer in place. -/
def hwrite (h : Heap) (r : Ref) (a : Arr) : Heap := h.set r a

/-- The color mode detected at lines 369-381 of enhance. -/
inductive ImgMode where
  | L
  | RGB
  | RGBA

/-- The content transformations used by enhance, left abstract: the frame property
depends only on which buffers each step reads and which it allocates or writes. -/
structure EnhanceFns where
  astypeF : Arr → Arr
  gray2rgbF : Arr → Arr
  bgr2rgbF : Arr → Arr
  sliceRGBF : Arr → Arr
  alphaPlaneF : Arr → Arr
  preF : Arr → Arr
  zerosArr : Arr
  netWriteF : Arr → Arr → Arr
  clampF : Arr → Arr
  postReadF : Arr → Arr
  bgr2grayF : Arr → Arr
  bgr2bgraF : Arr → Arr
  setAlphaF : Arr → Arr → Arr
  resizeF : Arr → Arr
  quantF : Arr → Arr

/-- One pass of pre_process, inference and post_process, as run by enhance on the
main image (lines 384-411) and again on the alpha plane (lines 418-448):
pre_process builds the fresh tensor self.img (lines 204-227); tile_process or
process allocates self.output (line 274 new_zeros) and writes the network results
into it (lines 328-335 or 232); clamp_ at line 402 writes the clamped values in
place through a view of self.output; the fancy-index copy and transpose at
line 411 allocate the fresh numpy array output_img. -/
def mainPipeline (fns : EnhanceFns) (h : Heap) (src : Ref) : Heap × Ref :=
  let a := halloc h (fns.preF (hread h src))
  let b := halloc a.1 fns.zerosArr
  let c := hwrite b.1 b.2 (fns.netWriteF (hread b.1 a.2) (hread b.1 b.2))
  let d := hwrite c b.2 (fns.clampF (hread c b.2))
  halloc d (fns.postReadF (hread d b.2))

/-- Lines 462-476 of enhance: the re-quantization allocates a fresh integer buffer
(lines 463-466), and the optional outscale override allocates the resized result
(lines 468-476). -/
def finalizeOut (fns : EnhanceFns) (doResize : Bool) (h : Heap) (r : Ref) : Heap × Ref :=
  let q := halloc h (fns.quantF (hread h r))
  if doResize then halloc q.1 (fns.resizeF (hread q.1 q.2)) else q

/-- The heap effect of RealESRGANer.enhance (utils.py 358-478), torch backend.
The caller passes the buffer imgRef; line 362, img = img.astype(np.float32),
copies it into a fresh buffer, and everything after reads and writes only
post-entry buffers.  The onnx and triton paths perform a subset of these writes
(clip at lines 404-406 copies instead of writing in place). -/
def enhanceHeap (fns : EnhanceFns) (mode : ImgMode) (alphaNet : Bool) (doResize : Bool)
    (h0 : Heap) (imgRef : Ref) : Heap × Ref :=
  -- line 362: img = img.astype(np.float32), a fresh copy of the caller buffer
  let s1 := halloc h0 (fns.astypeF (hread h0 imgRef))
  match mode with
  | ImgMode.L =>
      -- line 371: img = cv2.cvtColor(img, COLOR_GRAY2RGB), fresh
      let c := halloc s1.1 (fns.gray2rgbF (hread s1.1 s1.2))
      let m := mainPipeline fns c.1 c.2
      -- line 413: output_img = cv2.cvtColor(output_img, COLOR_BGR2GRAY), fresh
      let g := halloc m.1 (fns.bgr2grayF (hread m.1 m.2))
      finalizeOut fns doResize g.1 g.2
  | ImgMode.RGB =>
      -- line 381: img = cv2.cvtColor(img, COLOR_BGR2RGB), fresh
      let c := halloc s1.1 (fns.bgr2rgbF (hread s1.1 s1.2))
      let m := mainPipeline fns c.1 c.2
      finalizeOut fns doResize m.1 m.2
  | ImgMode.RGBA =>
      -- lines 374-376: alpha = img[:, :, 3] is a read-only view of the copy;
      -- img = cv2.cvtColor(img[:, :, 0:3], COLOR_BGR2RGB) is fresh
      let c := halloc s1.1 (fns.bgr2rgbF (fns.sliceRGBF (hread s1.1 s1.2)))
      if alphaNet then
        -- line 378: alpha = cv2.cvtColor(alpha, COLOR_GRAY2RGB), fresh
        let d := halloc c.1 (fns.gray2rgbF (fns.alphaPlaneF (hread c.1 s1.2)))
        let m := mainPipeline fns d.1 c.2
        -- lines 418-448: the same pipeline run on the alpha plane
        let ma := mainPipeline fns m.1 d.2
        -- line 449: output_alpha = cv2.cvtColor(output_alpha, COLOR_BGR2GRAY), fresh
        let g := halloc ma.1 (fns.bgr2grayF (hread ma.1 ma.2))
        -- line 459: output_img = cv2.cvtColor(output_img, COLOR_BGR2BGRA), fresh
        let bb := halloc g.1 (fns.bgr2bgraF (hread g.1 m.2))
        -- line 460: output_img[:, :, 3] = output_alpha, an in-place write
        let w := hwrite bb.1 bb.2 (fns.setAlphaF (hread bb.1 bb.2) (hread bb.1 g.2))
        finalizeOut fns doResize w bb.2
      else
        let m := mainPipeline fns c.1 c.2
        -- lines 451-456: output_alpha = cv2.resize(alpha, ...), fresh, reading the
        -- alpha view of the astype copy
        let ra := halloc m.1 (fns.resizeF (fns.alphaPlaneF (hread m.1 s1.2)))
        let bb := halloc ra.1 (fns.bgr2bgraF (hread ra.1 m.2))
        let w := hwrite bb.1 bb.2 (fns.setAlphaF (hread bb.1 bb.2) (hread bb.1 ra.2))
        finalizeOut fns doResize w bb.2

/-- All pre-existing buffers below index n read the same after a heap operation. -/
def preservesBelow (n : ℕ) (h h2 : Heap) : Prop :=
  h.length ≤ h2.length ∧ ∀ r, r < n → hread h2 r = hread h r

/-- Concrete transformation pack used to evaluate the heap model. -/
def cFns : EnhanceFns where
  astypeF := id
  gray2rgbF := id
  bgr2rgbF := id
  sliceRGBF := id
  alphaPlaneF := id
  preF := id
  zerosArr := []
  netWriteF := fun a b => a ++ b
  clampF := id
  postReadF := id
  bgr2grayF := id
  bgr2bgraF := id
  setAlphaF := fun _ b => b
  resizeF := id
  quantF := id

/-- Concrete initial heap holding one caller buffer. -/
def cH0 : Heap := [[1, 2, 3]]

/- ------------------------------------------------------------------ -/
/- First theorem: the padding round trip (claim C2).                    -/
/- ------------------------------------------------------------------ -/

/-- Claim C2: for every pre_pad p, any positive integer scale s and every input of
spatial size (h, w), if pre_process pads to (ph, pw) and the backend output has
size (s * ph, s * pw), then post_process crops first the alignment pad scaled by s
and then the pre-pad scaled by s, and the result has size exactly (h * s, w * s). -/
theorem C2_padding_round_trip (h w p s : ℕ) (hs : 0 < s) :
    post_process_size (pre_process_size s p h w).1
      ((pre_process_size s p h w).2.1 * s) ((pre_process_size s p h w).2.2 * s)
      = (h * s, w * s) := by
  have hcrop : ∀ a b : ℕ, (a + b) * s - b * s = a * s := by
    intro a b
    rw [Nat.add_mul, Nat.add_sub_cancel]
  unfold pre_process_size post_process_size
  cases hms : modScaleOf s with
  | none =>
      by_cases hp : p = 0 <;> simp [hp, hms, hcrop]
  | some m =>
      by_cases hp : p = 0
      · simp [hp, hms, hcrop]
      · simp only [hms, hp, ne_eq, not_false_eq_true, if_true, if_neg, ite_true]
        simp [hcrop]

/-- Witness for C2 at h = 5, w = 7, p = 10, s = 2. -/
theorem C2_padding_round_trip_witness :
    0 < 2 ∧
      post_process_size (pre_process_size 2 10 5 7).1
        ((pre_process_size 2 10 5 7).2.1 * 2) ((pre_process_size 2 10 5 7).2.2 * 2)
        = (5 * 2, 7 * 2) :=
  ⟨by decide, C2_padding_round_trip 5 7 10 2 (by decide)⟩


/- ------------------------------------------------------------------ -/
/- Claim C5: deep network interpolation.                                -/
/- ------------------------------------------------------------------ -/

/-- Claim C5: whenever dni succeeds, the merged mapping assigns to every parameter
key k present in both checkpoints the value w0 * a[k] + w1 * b[k]. -/
theorem C5_dni_interpolation (a b m : StateDict) (w0 w1 : ℚ) (k : String) (va vb : ℚ)
    (hm : dni a b w0 w1 = some m) (ha : lookupSD a k = some va)
    (hb : lookupSD b k = some vb) :
    lookupSD m k = some (w0 * va + w1 * vb) := by
  induction a generalizing m with
  | nil => simp [lookupSD] at ha
  | cons kv rest ih =>
      rcases kv with ⟨k0, v0⟩
      simp only [dni, List.mapM_cons] at hm
      cases hb0 : lookupSD b k0 with
      | none => rw [hb0] at hm; simp at hm
      | some vb0 =>
          rw [hb0] at hm
          cases hm2 : rest.mapM
              (fun kv => (lookupSD b kv.1).map fun vb => (kv.1, w0 * kv.2 + w1 * vb)) with
          | none => rw [hm2] at hm; simp at hm
          | some tl =>
              rw [hm2] at hm
              have hm3 : (k0, w0 * v0 + w1 * vb0) :: tl = m := by simpa using hm
              subst hm3
              by_cases hk : k0 = k
              · subst hk
                unfold lookupSD at ha ⊢
                rw [List.find?_cons_of_pos _ (by simp)] at ha
                rw [List.find?_cons_of_pos _ (by simp)]
                have hva : v0 = va := by simpa using ha
                have hvb : vb0 = vb := by
                  rw [hb0] at hb; simpa using hb
                simp [hva, hvb]
              · unfold lookupSD at ha ⊢
                rw [List.find?_cons_of_neg _ (by simp [hk])] at ha
                rw [List.find?_cons_of_neg _ (by simp [hk])]
                exact ih tl hm2 ha

/-- Witness for C5: the example of the specification, weights 0.3 and 0.7 on a
shared parameter equal to 1 and 2 yields 1.7. -/
theorem C5_dni_interpolation_witness :
    dni [("weight", 1)] [("weight", 2)] (3 / 10) (7 / 10)
        = some [("weight", 17 / 10)] ∧
      lookupSD [("weight", (17 : ℚ) / 10)] "weight"
        = some ((3 / 10) * 1 + (7 / 10) * 2) := by
  have hm : dni [("weight", (1 : ℚ))] [("weight", (2 : ℚ))] (3 / 10) (7 / 10)
      = some [("weight", 17 / 10)] := by
    have hstep : dni [("weight", (1 : ℚ))] [("weight", (2 : ℚ))] (3 / 10) (7 / 10)
        = some [("weight", 3 / 10 * 1 + 7 / 10 * 2)] := rfl
    have harith : (3 : ℚ) / 10 * 1 + 7 / 10 * 2 = 17 / 10 := by norm_num
    rw [hstep, harith]
  exact ⟨hm,
    C5_dni_interpolation [("weight", 1)] [("weight", 2)] [("weight", 17 / 10)]
      (3 / 10) (7 / 10) "weight" 1 2 hm rfl rfl⟩

/- ------------------------------------------------------------------ -/
/- Claim C7: weight key resolution.                                     -/
/- ------------------------------------------------------------------ -/

/-- Claim C7: the torch constructor prefers the params_ema key of the loaded
checkpoint, falls back to params, and fails with ModelLoadError when neither key
is present. -/
theorem C7_weight_key_resolution (cp : Checkpoint) :
    (∀ sd, lookupCP cp "params_ema" = some sd → loadWeights cp = Except.ok sd)
  ∧ (lookupCP cp "params_ema" = none →
      ∀ sd, lookupCP cp "params" = some sd → loadWeights cp = Except.ok sd)
  ∧ (lookupCP cp "params_ema" = none → lookupCP cp "params" = none →
      loadWeights cp = Except.error "ModelLoadError") := by
  have hck : ∀ k : String, containsKeyCP cp k = true ↔ (lookupCP cp k).isSome = true := by
    intro k
    unfold containsKeyCP lookupCP
    rw [List.any_eq_true]
    cases hf : List.find? (fun kv => kv.1 == k) cp with
    | none =>
        constructor
        · rintro ⟨x, hx, hpx⟩
          exact absurd hpx (by simpa using List.find?_eq_none.mp hf x hx)
        · intro hcon; simp at hcon
    | some kv =>
        constructor
        · intro _; simp
        · intro _
          refine ⟨kv, List.mem_of_find?_eq_some hf, ?_⟩
          have hp := List.find?_some hf
          simpa using hp
  refine ⟨?_, ?_, ?_⟩
  · intro sd hsd
    have hc : containsKeyCP cp "params_ema" = true := by
      rw [hck]; simp [hsd]
    unfold loadWeights keynameFor
    rw [hc]
    simp [hsd]
  · intro hnone sd hsd
    have hc : containsKeyCP cp "params_ema" = false := by
      cases hcc : containsKeyCP cp "params_ema" with
      | false => rfl
      | true =>
          have := (hck "params_ema").mp hcc
          rw [hnone] at this
          simp at this
    unfold loadWeights keynameFor
    rw [hc]
    simp [hsd]
  · intro h1 h2
    have hc : containsKeyCP cp "params_ema" = false := by
      cases hcc : containsKeyCP cp "params_ema" with
      | false => rfl
      | true =>
          have := (hck "params_ema").mp hcc
          rw [h1] at this
          simp at this
    unfold loadWeights keynameFor
    rw [hc]
    simp [h2]

/-- Witness for C7: a checkpoint with both keys resolves to params_ema, one with
only params resolves to params, and one with neither fails with ModelLoadError. -/
theorem C7_weight_key_resolution_witness :
    loadWeights [("params_ema", [("w", 1)]), ("params", [("w", 2)])]
        = Except.ok [("w", 1)] ∧
      loadWeights [("params", [("w", 2)])] = Except.ok [("w", 2)] ∧
      loadWeights [("other", [])] = Except.error "ModelLoadError" :=
  ⟨(C7_weight_key_resolution [("params_ema", [("w", 1)]), ("params", [("w", 2)])]).1
      [("w", 1)] (by decide),
    (C7_weight_key_resolution [("params", [("w", 2)])]).2.1 (by decide)
      [("w", 2)] (by decide),
    (C7_weight_key_resolution [("other", [])]).2.2 (by decide) (by decide)⟩

/- ------------------------------------------------------------------ -/
/- Claim C9: prefetch ordering.                                         -/
/- ------------------------------------------------------------------ -/

/-- Iterating a queue of decoded images followed by the sentinel yields exactly the
images, in order. -/
theorem prefetchIterate_decoded (decode : String → Arr) (paths : List String) :
    prefetchIterate (paths.map (fun p => some (decode p)) ++ [none])
      = paths.map decode := by
  induction paths with
  | nil => rfl
  | cons p rest ih =>
      simp only [List.map_cons, List.cons_append, prefetchIterate, List.append_eq, ih]

/-- Claim C9: when every path decodes, the producer pushes the decoded images in
exactly the order of the input path sequence followed by one sentinel, the
sentinel occurs exactly once in the queue, and iterating the reader yields the
images in the same order, consuming every image before observing the sentinel. -/
theorem C9_prefetch_order (imread : String → Option Arr) (decode : String → Arr)
    (paths : List String) (hd : ∀ p ∈ paths, imread p = some (decode p)) :
    prefetchQueue imread paths = paths.map (fun p => some (decode p)) ++ [none]
  ∧ prefetchIterate (prefetchQueue imread paths) = paths.map decode
  ∧ (prefetchQueue imread paths).countP (fun x => x.isNone) = 1
  ∧ (prefetchIterate (prefetchQueue imread paths)).length + 1
      = (prefetchQueue imread paths).length := by
  have hq : prefetchQueue imread paths
      = paths.map (fun p => some (decode p)) ++ [none] := by
    unfold prefetchQueue
    congr 1
    exact List.map_congr_left hd
  refine ⟨hq, ?_, ?_, ?_⟩
  · rw [hq]
    exact prefetchIterate_decoded decode paths
  · rw [hq, List.countP_append]
    have hz : (paths.map (fun p => some (decode p))).countP (fun x => x.isNone) = 0 := by
      rw [List.countP_eq_zero]
      intro a ha
      rcases List.mem_map.mp ha with ⟨p, _, hp⟩
      subst hp
      simp
    rw [hz]
    simp
  · rw [hq, prefetchIterate_decoded decode paths]
    simp

/-- Witness for C9 on two concrete paths. -/
theorem C9_prefetch_order_witness :
    prefetchQueue (fun _ => some [5]) ["a", "b"]
        = (["a", "b"].map fun _ => some ([5] : Arr)) ++ [none]
  ∧ prefetchIterate (prefetchQueue (fun _ => some [5]) ["a", "b"])
        = ["a", "b"].map (fun _ => ([5] : Arr))
  ∧ (prefetchQueue (fun _ => some [5]) ["a", "b"]).countP (fun x => x.isNone) = 1
  ∧ (prefetchIterate (prefetchQueue (fun _ => some [5]) ["a", "b"])).length + 1
        = (prefetchQueue (fun _ => some [5]) ["a", "b"]).length :=
  C9_prefetch_order (fun _ => some [5]) (fun _ => [5]) ["a", "b"] (fun _ _ => rfl)

/- ------------------------------------------------------------------ -/
/- Claim C4: output-scale override.                                     -/
/- ------------------------------------------------------------------ -/

/-- Python truncation agrees with the floor on nonnegative rationals. -/
theorem pyInt_eq_floor (q : ℚ) (hq : 0 ≤ q) : pyInt q = ⌊q⌋ := by
  rw [pyInt, Rat.floor_def]
  exact Int.tdiv_eq_ediv (Rat.num_nonneg.mpr hq) (Int.natCast_nonneg _)

/-- Counterexample to claim C4 as stated, at a realizable input: a 3 x 3 image
with scale 2 and pre_pad 1 passes every reflect-pad check of pre_process (pad 1
fits a 3-pixel dimension, and the pre-padded 4 x 4 image needs no mod pad for
divisor 2), so enhance reaches the resize at lines 468-476; with outscale 1.9 the
code requests size int(3 * 1.9) = 5, while round(3 * 1.9) = 6. -/
theorem C4_round_counterexample :
    pre_process_ok 2 1 3 3 = true
  ∧ enhanceOutputSize 3 3 2 1 (some (19 / 10)) = some (5, 5)
  ∧ enhanceOutputSize 3 3 2 1 (some (19 / 10))
      ≠ some ((round (((3 : ℕ) : ℚ) * (19 / 10))).toNat,
          (round (((3 : ℕ) : ℚ) * (19 / 10))).toNat) := by
  have hok : pre_process_ok 2 1 3 3 = true := by decide
  have hp : pyInt (((3 : ℕ) : ℚ) * (19 / 10)) = 5 := by
    rw [show (((3 : ℕ) : ℚ) * (19 / 10)) = 57 / 10 by push_cast; norm_num]
    rw [pyInt_eq_floor _ (by norm_num)]
    rw [Int.floor_eq_iff]
    norm_num
  have hcode : enhanceOutputSize 3 3 2 1 (some (19 / 10)) = some (5, 5) := by
    simp only [enhanceOutputSize, hok, if_true]
    rw [if_pos (by norm_num : (19 / 10 : ℚ) ≠ ((2 : ℕ) : ℚ))]
    rw [hp]
    rfl
  have hround : round (((3 : ℕ) : ℚ) * (19 / 10)) = 6 := by
    rw [round_eq]
    rw [show (((3 : ℕ) : ℚ) * (19 / 10)) + 1 / 2 = 31 / 5 by push_cast; norm_num]
    rw [Int.floor_eq_iff]
    norm_num
  refine ⟨hok, hcode, ?_⟩
  rw [hcode, hround]
  decide

/-- Claim C4 amended: whenever pre_process succeeds (all reflect pads fit) and
outscale is set, nonnegative and differs from the network scale, the final
dimensions are the truncations int(h_input * outscale) and
int(w_input * outscale) (for nonnegative factors, the floor), not the roundings. -/
theorem C4_outscale_trunc (h w s p : ℕ) (o : ℚ) (ho : 0 ≤ o) (hne : o ≠ (s : ℚ))
    (hok : pre_process_ok s p h w = true) :
    enhanceOutputSize h w s p (some o)
      = some ((⌊(h : ℚ) * o⌋).toNat, (⌊(w : ℚ) * o⌋).toNat) := by
  simp only [enhanceOutputSize, hok, if_true]
  rw [if_pos hne, pyInt_eq_floor _ (mul_nonneg (Nat.cast_nonneg h) ho),
    pyInt_eq_floor _ (mul_nonneg (Nat.cast_nonneg w) ho)]

/-- Witness for C4 amended at the realizable input 3 x 3, scale 2, pre_pad 1,
outscale 1.9. -/
theorem C4_outscale_trunc_witness :
    (0 ≤ (19 / 10 : ℚ)) ∧ ((19 / 10 : ℚ) ≠ ((2 : ℕ) : ℚ))
  ∧ pre_process_ok 2 1 3 3 = true
  ∧ enhanceOutputSize 3 3 2 1 (some (19 / 10))
      = some ((⌊((3 : ℕ) : ℚ) * (19 / 10)⌋).toNat,
          (⌊((3 : ℕ) : ℚ) * (19 / 10)⌋).toNat) :=
  ⟨by norm_num, by norm_num, by decide,
    C4_outscale_trunc 3 3 2 1 (19 / 10) (by norm_num) (by norm_num) (by decide)⟩

/- ------------------------------------------------------------------ -/
/- Claim C6: bit-depth selection and re-quantization.                   -/
/- ------------------------------------------------------------------ -/

/-- Round half to even stays inside [0, N] on inputs inside [0, N]. -/
theorem roundHalfEven_bounds (q : ℚ) (N : ℕ) (h0 : 0 ≤ q) (h1 : q ≤ (N : ℚ)) :
    0 ≤ roundHalfEven q ∧ roundHalfEven q ≤ (N : ℤ) := by
  unfold roundHalfEven
  by_cases hf : q - (⌊q⌋ : ℚ) = 1 / 2
  · rw [if_pos hf]
    have hfl0 : 0 ≤ ⌊q⌋ := Int.floor_nonneg.mpr h0
    have hflq : (⌊q⌋ : ℚ) = q - 1 / 2 := by linarith
    have hltN : (⌊q⌋ : ℚ) < (N : ℚ) := by
      rw [hflq]
      linarith
    have hflN : ⌊q⌋ + 1 ≤ (N : ℤ) := Int.add_one_le_iff.mpr (by exact_mod_cast hltN)
    by_cases he : ⌊q⌋ % 2 = 0
    · rw [if_pos he]
      exact ⟨hfl0, by omega⟩
    · rw [if_neg he]
      exact ⟨by omega, hflN⟩
  · rw [if_neg hf, round_eq]
    constructor
    · exact Int.floor_nonneg.mpr (by linarith)
    · rw [Int.floor_le_iff]
      push_cast
      linarith

/-- Claim C6: the 16-bit path is taken exactly when the maximum sample exceeds 256,
in which case normalization divides by 65535 and re-quantization rounds
output * 65535 into the unsigned 16-bit range; otherwise normalization divides by
255 and re-quantization rounds output * 255 into the unsigned 8-bit range. -/
theorem C6_bit_depth_selection (m v : ℚ) (h0 : 0 ≤ v) (h1 : v ≤ 1) :
    (maxRangeOf m = 65535 ↔ 256 < m)
  ∧ (maxRangeOf m = 255 ↔ ¬ 256 < m)
  ∧ (256 < m → imgNormalize m v = v / 65535)
  ∧ (¬ 256 < m → imgNormalize m v = v / 255)
  ∧ quantU16 v = (roundHalfEven (v * 65535)).toNat
  ∧ (roundHalfEven (v * 65535)).toNat ≤ 65535
  ∧ quantU8 v = (roundHalfEven (v * 255)).toNat
  ∧ (roundHalfEven (v * 255)).toNat ≤ 255 := by
  have b16 := roundHalfEven_bounds (v * 65535) 65535
    (mul_nonneg h0 (by norm_num)) (by push_cast; nlinarith)
  have b8 := roundHalfEven_bounds (v * 255) 255
    (mul_nonneg h0 (by norm_num)) (by push_cast; nlinarith)
  have t16 : (roundHalfEven (v * 65535)).toNat ≤ 65535 := by omega
  have t8 : (roundHalfEven (v * 255)).toNat ≤ 255 := by omega
  refine ⟨?_, ?_, ?_, ?_, ?_, t16, ?_, t8⟩
  · unfold maxRangeOf
    by_cases hm : 256 < m <;> simp [hm]
  · unfold maxRangeOf
    by_cases hm : 256 < m <;> simp [hm]
  · intro hm
    unfold imgNormalize maxRangeOf
    rw [if_pos hm]
    norm_num
  · intro hm
    unfold imgNormalize maxRangeOf
    rw [if_neg hm]
    norm_num
  · unfold quantU16
    exact Nat.mod_eq_of_lt (by omega)
  · unfold quantU8
    exact Nat.mod_eq_of_lt (by omega)

/-- Witness for C6 at maximum sample 300 and output value one half. -/
theorem C6_bit_depth_selection_witness :
    (0 ≤ (1 / 2 : ℚ)) ∧ ((1 / 2 : ℚ) ≤ 1) ∧
      ((maxRangeOf 300 = 65535 ↔ 256 < (300 : ℚ))
      ∧ (maxRangeOf 300 = 255 ↔ ¬ 256 < (300 : ℚ))
      ∧ (256 < (300 : ℚ) → imgNormalize 300 (1 / 2) = (1 / 2) / 65535)
      ∧ (¬ 256 < (300 : ℚ) → imgNormalize 300 (1 / 2) = (1 / 2) / 255)
      ∧ quantU16 (1 / 2) = (roundHalfEven ((1 / 2) * 65535)).toNat
      ∧ (roundHalfEven ((1 / 2 : ℚ) * 65535)).toNat ≤ 65535
      ∧ quantU8 (1 / 2) = (roundHalfEven ((1 / 2) * 255)).toNat
      ∧ (roundHalfEven ((1 / 2 : ℚ) * 255)).toNat ≤ 255) :=
  ⟨by norm_num, by norm_num, C6_bit_depth_selection 300 (1 / 2) (by norm_num) (by norm_num)⟩

/- ------------------------------------------------------------------ -/
/- Claim C8: tiling refused for backends that do not support it.        -/
/- ------------------------------------------------------------------ -/

/-- Claim C8: invoking tile_process with the onnx or triton backend fails with the
unsupported-operation error before any tile is attempted: zero inference calls are
made and no output accumulator is produced. -/
theorem C8_unsupported_tiling (b : Backend) (scale tile_size tile_pad height width : ℕ)
    (net : Img → Option Img) (img : Img)
    (hb : b = Backend.onnx ∨ b = Backend.triton) :
    tile_process b scale tile_size tile_pad height width net img
      = (Except.error TileErr.unsupported, 0) := by
  unfold tile_process
  rw [if_pos hb]

/-- Witness for C8 at the onnx backend with a 17 x 13 image, tile 8, pad 2. -/
theorem C8_unsupported_tiling_witness :
    (Backend.onnx = Backend.onnx ∨ Backend.onnx = Backend.triton)
  ∧ tile_process Backend.onnx 4 8 2 17 13 (fun t => some t) (fun _ _ => 0)
      = (Except.error TileErr.unsupported, 0) :=
  ⟨Or.inl rfl,
    C8_unsupported_tiling Backend.onnx 4 8 2 17 13 (fun t => some t) (fun _ _ => 0)
      (Or.inl rfl)⟩

/- ------------------------------------------------------------------ -/
/- Claim C3: behaviour of tile_process on a per-tile inference fault.   -/
/- ------------------------------------------------------------------ -/

/-- Claim C3 evaluated on the code: on a 1 x 2 image with scale 1, tile 1 and pad 0,
where inference succeeds on tile 1 (constant output 1) and raises RuntimeError on
tile 2, the region of the failed tile 2 holds the stale value 1 copied from the
previous tile output, not the pre-initialized zero; and when the first tile fails,
the copy line hits the unbound local output_tile and tile_process aborts. -/
theorem C3_stale_tile_copy :
    evalTile (tile_process Backend.torch 1 1 0 1 2 c3net c3img) 0 1 = some 1
  ∧ evalTile (tile_process Backend.torch 1 1 0 1 2 c3net c3img) 0 1 ≠ some 0
  ∧ isNameErr (tile_process Backend.torch 1 1 0 1 1 c3netFail c3img) = true := by
  refine ⟨by decide, by decide, by decide⟩

/- ------------------------------------------------------------------ -/
/- Claim C1: the tile grid partitions the output exactly.               -/
/- ------------------------------------------------------------------ -/

/-- The tile count times the tile size covers the axis. -/
theorem le_tiles_mul (limit T : ℕ) (hT : 0 < T) : limit ≤ tiles_x limit T * T := by
  rcases Nat.eq_zero_or_pos limit with h0 | hpos
  · simp [h0]
  · unfold tiles_x
    have hd := Nat.div_add_mod (limit + T - 1) T
    have hm := Nat.mod_lt (limit + T - 1) hT
    have hb : (limit + T - 1) / T * T = T * ((limit + T - 1) / T) := Nat.mul_comm _ _
    omega

/-- Multiplication distributes over the minimum of naturals. -/
theorem min_mul_right (a b s : ℕ) : min a b * s = min (a * s) (b * s) := by
  rcases le_total a b with h | h
  · rw [min_eq_left h, min_eq_left (Nat.mul_le_mul_right s h)]
  · rw [min_eq_right h, min_eq_right (Nat.mul_le_mul_right s h)]

/-- On one axis, every output coordinate below limit * s lies in the output range
of exactly one tile index. -/
theorem tiles_cover_axis (limit T s : ℕ) (hT : 0 < T) (hs : 0 < s) (i : ℕ)
    (hi : i < limit * s) :
    ∃! x : ℕ, x < tiles_x limit T ∧ x * T * s ≤ i ∧ i < min (x * T + T) limit * s := by
  have hts : 0 < T * s := Nat.mul_pos hT hs
  have hd := Nat.div_add_mod i (T * s)
  have hm := Nat.mod_lt i hts
  have hlim := le_tiles_mul limit T hT
  refine ⟨i / (T * s), ⟨?_, ?_, ?_⟩, ?_⟩
  · rw [Nat.div_lt_iff_lt_mul hts]
    have h1 : limit * s ≤ tiles_x limit T * T * s := Nat.mul_le_mul_right s hlim
    have h2 : tiles_x limit T * T * s = tiles_x limit T * (T * s) := Nat.mul_assoc _ _ _
    omega
  · have h3 : i / (T * s) * T * s = T * s * (i / (T * s)) := by ring
    omega
  · rw [min_mul_right]
    refine Nat.lt_min.mpr ⟨?_, hi⟩
    have h4 : (i / (T * s) * T + T) * s = T * s * (i / (T * s)) + T * s := by ring
    omega
  · rintro x' ⟨hx'lt, hlo, hhi⟩
    rw [min_mul_right] at hhi
    have hhi2 : i < (x' * T + T) * s := lt_of_lt_of_le hhi (Nat.min_le_left _ _)
    have h5 : x' * T * s = x' * (T * s) := by ring
    have h6 : (x' * T + T) * s = (x' + 1) * (T * s) := by ring
    have := Nat.div_eq_of_lt_le (by omega : x' * (T * s) ≤ i) (by omega : i < (x' + 1) * (T * s))
    omega

/-- Membership in the visit list is exactly membership in the tile grid. -/
theorem mem_tileVisitList {tx ty x y : ℕ} :
    (x, y) ∈ tileVisitList tx ty ↔ x < tx ∧ y < ty := by
  unfold tileVisitList
  simp only [List.mem_flatMap, List.mem_map, List.mem_range, Prod.mk.injEq]
  constructor
  · rintro ⟨y2, hy2, x2, hx2, hxx, hyy⟩
    subst hxx
    subst hyy
    exact ⟨hx2, hy2⟩
  · rintro ⟨hx, hy⟩
    exact ⟨y, hy, x, hx, rfl, rfl⟩

/-- The visit list enumerates the grid in row-major order: its n-th element is
(n mod tiles_x, n div tiles_x). -/
theorem tileVisitList_rowMajor (tx ty : ℕ) (htx : 0 < tx) :
    tileVisitList tx ty = (List.range (tx * ty)).map fun n => (n % tx, n / tx) := by
  induction ty with
  | zero => simp [tileVisitList]
  | succ k ih =>
      have hsplit : tx * (k + 1) = tx * k + tx := by ring
      rw [hsplit, List.range_add, List.map_append]
      unfold tileVisitList at ih ⊢
      rw [List.range_succ, List.flatMap_append, ih]
      congr 1
      simp only [List.flatMap_cons, List.flatMap_nil, List.append_nil, List.map_map]
      apply List.map_congr_left
      intro x hx
      have hxlt : x < tx := List.mem_range.mp hx
      simp only [Function.comp_apply]
      have hmod : (tx * k + x) % tx = x := by
        rw [Nat.mul_add_mod]
        exact Nat.mod_eq_of_lt hxlt
      have hdiv : (tx * k + x) / tx = k := by
        rw [Nat.mul_add_div htx, Nat.div_eq_of_lt hxlt, Nat.add_zero]
      rw [hmod, hdiv]

/-- Claim C1: for an image of positive height and width, tile size T, any tile pad
and scale s, tile_process visits the grid of ceil(w / T) by ceil(h / T) tiles in
row-major order, assigns tile (x, y) the output region from x * T * s (inclusive)
to min((x+1) * T, w) * s (exclusive) horizontally and the analogue vertically, and
these regions partition the full output rectangle: every output pixel lies in the
region of exactly one visited tile. -/
theorem C1_tile_grid_partition (height width T P s : ℕ) (hh : 1 ≤ height)
    (hw : 1 ≤ width) (hT : 0 < T) (hs : 1 ≤ s) :
    tileVisitList (tiles_x width T) (tiles_y height T)
        = (List.range (tiles_x width T * tiles_y height T)).map
            (fun n => (n % tiles_x width T, n / tiles_x width T))
  ∧ (∀ i j, i < width * s → j < height * s →
      ∃! t : ℕ × ℕ, t ∈ tileVisitList (tiles_x width T) (tiles_y height T)
        ∧ output_start_x T s t.1 ≤ i ∧ i < output_end_x T width s t.1
        ∧ output_start_y T s t.2 ≤ j ∧ j < output_end_y T height s t.2) := by
  have htx : 0 < tiles_x width T := by
    unfold tiles_x
    have : 1 * T ≤ width + T - 1 := by omega
    exact Nat.le_div_iff_mul_le hT |>.mpr this
  constructor
  · exact tileVisitList_rowMajor _ _ htx
  · intro i j hi hj
    obtain ⟨x0, hx0, hxu⟩ := tiles_cover_axis width T s hT hs i hi
    obtain ⟨y0, hy0, hyu⟩ := tiles_cover_axis height T s hT hs j hj
    refine ⟨(x0, y0), ⟨mem_tileVisitList.mpr ⟨hx0.1, hy0.1⟩, ?_, ?_, ?_, ?_⟩, ?_⟩
    · exact hx0.2.1
    · exact hx0.2.2
    · exact hy0.2.1
    · exact hy0.2.2
    · rintro ⟨x2, y2⟩ ⟨hmem, ha1, ha2, ha3, ha4⟩
      obtain ⟨hx2, hy2⟩ := mem_tileVisitList.mp hmem
      have ex := hxu x2 ⟨hx2, ha1, ha2⟩
      have ey := hyu y2 ⟨hy2, ha3, ha4⟩
      simp [ex, ey]

/-- Witness for C1 at the 17 x 13 example of the specification: scale 4, tile 8. -/
theorem C1_tile_grid_partition_witness :
    (1 ≤ 17 ∧ 1 ≤ 13 ∧ 0 < 8 ∧ 1 ≤ 4)
  ∧ (tileVisitList (tiles_x 13 8) (tiles_y 17 8)
        = (List.range (tiles_x 13 8 * tiles_y 17 8)).map
            (fun n => (n % tiles_x 13 8, n / tiles_x 13 8))
  ∧ (∀ i j, i < 13 * 4 → j < 17 * 4 →
      ∃! t : ℕ × ℕ, t ∈ tileVisitList (tiles_x 13 8) (tiles_y 17 8)
        ∧ output_start_x 8 4 t.1 ≤ i ∧ i < output_end_x 8 13 4 t.1
        ∧ output_start_y 8 4 t.2 ≤ j ∧ j < output_end_y 8 17 4 t.2)) :=
  ⟨⟨by decide, by decide, by decide, by decide⟩,
    C1_tile_grid_partition 17 13 8 2 4 (by decide) (by decide) (by decide) (by decide)⟩

/- ------------------------------------------------------------------ -/
/- Claim C10: enhance leaves the caller buffer untouched.               -/
/- ------------------------------------------------------------------ -/

/-- Appending a fresh buffer does not change reads of existing buffers. -/
theorem hread_append (h : Heap) (a : Arr) (r : Ref) (hr : r < h.length) :
    hread (h ++ [a]) r = hread h r := by
  unfold hread
  exact List.getD_append h [a] [] r hr

/-- Writing one buffer does not change reads of a different buffer. -/
theorem hread_set_ne (h : Heap) (r2 : Ref) (a : Arr) (r : Ref) (hne : r2 ≠ r) :
    hread (h.set r2 a) r = hread h r := by
  unfold hread
  rw [List.getD_eq_getElem?_getD, List.getD_eq_getElem?_getD,
    List.getElem?_set_ne hne]

/-- preservesBelow is reflexive. -/
theorem pb_refl (n : ℕ) (h : Heap) : preservesBelow n h h :=
  ⟨le_refl _, fun _ _ => rfl⟩

/-- preservesBelow composes. -/
theorem pb_trans {n : ℕ} {h1 h2 h3 : Heap} (p1 : preservesBelow n h1 h2)
    (p2 : preservesBelow n h2 h3) : preservesBelow n h1 h3 :=
  ⟨le_trans p1.1 p2.1, fun r hr => (p2.2 r hr).trans (p1.2 r hr)⟩

/-- Allocation preserves every buffer below n when n is within the heap. -/
theorem pb_append (n : ℕ) (h : Heap) (a : Arr) (hn : n ≤ h.length) :
    preservesBelow n h (h ++ [a]) := by
  refine ⟨by simp, fun r hr => ?_⟩
  have hrl : r < h.length := by omega
  exact hread_append h a r hrl

/-- A write at an index at least n preserves every buffer below n. -/
theorem pb_set (n : ℕ) (h : Heap) (r2 : Ref) (a : Arr) (hn : n ≤ r2) :
    preservesBelow n h (h.set r2 a) := by
  refine ⟨by simp, fun r hr => ?_⟩
  have hrn : r2 ≠ r := by
    intro he
    subst he
    exact absurd hr (by omega)
  exact hread_set_ne h r2 a r hrn

/-- Bound transport along an append. -/
theorem le_length_append (n : ℕ) (h : Heap) (a : Arr) (hn : n ≤ h.length) :
    n ≤ (h ++ [a]).length := by
  simp
  omega

/-- Bound transport along a set. -/
theorem le_length_set (n : ℕ) (h : Heap) (r : Ref) (a : Arr) (hn : n ≤ h.length) :
    n ≤ (h.set r a).length := by
  simpa using hn

/-- The inference pass allocates two buffers, writes only the second of them, and
allocates its result: every pre-existing buffer below n is preserved. -/
theorem pb_mainPipeline (fns : EnhanceFns) (n : ℕ) (h : Heap) (src : Ref)
    (hn : n ≤ h.length) : preservesBelow n h (mainPipeline fns h src).1 := by
  simp only [mainPipeline, halloc, hwrite]
  exact pb_trans (pb_append n h _ hn)
    (pb_trans (pb_append n _ _ (le_length_append n h _ hn))
      (pb_trans (pb_set n _ _ _ (le_length_append n h _ hn))
        (pb_trans (pb_set n _ _ _ (le_length_append n h _ hn))
          (pb_append n _ _
            (le_length_set n _ _ _ (le_length_set n _ _ _
              (le_length_append n _ _ (le_length_append n h _ hn))))))))

/-- Chaining step: a further allocation on top of a preserved heap. -/
theorem pb_step_halloc {n : ℕ} {h1 h2 : Heap} (p : preservesBelow n h1 h2)
    (hn : n ≤ h1.length) (a : Arr) : preservesBelow n h1 (halloc h2 a).1 :=
  pb_trans p (pb_append n h2 a (le_trans hn p.1))

/-- Chaining step: a further in-place write at an index at least the length of the
starting heap. -/
theorem pb_step_hwrite {n : ℕ} {h1 h2 : Heap} (p : preservesBelow n h1 h2)
    (hn : n ≤ h1.length) (r : Ref) (hr : h1.length ≤ r) (a : Arr) :
    preservesBelow n h1 (hwrite h2 r a) :=
  pb_trans p (pb_set n h2 r a (le_trans hn hr))

/-- Chaining step: the inference pass on top of a preserved heap. -/
theorem pb_step_mainPipeline {n : ℕ} {h1 h2 : Heap} (p : preservesBelow n h1 h2)
    (hn : n ≤ h1.length) (fns : EnhanceFns) (src : Ref) :
    preservesBelow n h1 (mainPipeline fns h2 src).1 :=
  pb_trans p (pb_mainPipeline fns n h2 src (le_trans hn p.1))

/-- Chaining step: an allocation immediately followed by an in-place write of the
buffer just allocated. -/
theorem pb_step_halloc_hwrite {n : ℕ} {h1 h2 : Heap} (p : preservesBelow n h1 h2)
    (hn : n ≤ h1.length) (a b : Arr) :
    preservesBelow n h1 (hwrite (halloc h2 a).1 (halloc h2 a).2 b) :=
  pb_trans (pb_step_halloc p hn a)
    (pb_set n (halloc h2 a).1 (halloc h2 a).2 b (le_trans hn p.1))

/-- The re-quantization and optional resize only allocate. -/
theorem pb_finalizeOut (fns : EnhanceFns) (dR : Bool) (n : ℕ) (h : Heap) (r : Ref)
    (hn : n ≤ h.length) : preservesBelow n h (finalizeOut fns dR h r).1 := by
  cases dR with
  | false => exact pb_step_halloc (pb_refl n h) hn _
  | true => exact pb_step_halloc (pb_step_halloc (pb_refl n h) hn _) hn _

/-- Chaining step: finalization on top of a preserved heap. -/
theorem pb_step_finalizeOut {n : ℕ} {h1 h2 : Heap} (p : preservesBelow n h1 h2)
    (hn : n ≤ h1.length) (fns : EnhanceFns) (dR : Bool) (r : Ref) :
    preservesBelow n h1 (finalizeOut fns dR h2 r).1 :=
  pb_trans p (pb_finalizeOut fns dR n h2 r (le_trans hn p.1))

/-- Claim C10: enhance does not mutate the caller buffer.  The first operation of
enhance copies the input with astype (line 362) and every later operation reads
existing buffers but allocates or writes only buffers created after entry, in all
color modes, both alpha strategies and with or without the final resize; hence the
caller buffer reads unchanged after the call. -/
theorem C10_enhance_preserves_input (fns : EnhanceFns) (mode : ImgMode)
    (alphaNet doResize : Bool) (h0 : Heap) (imgRef : Ref) (hr : imgRef < h0.length) :
    hread (enhanceHeap fns mode alphaNet doResize h0 imgRef).1 imgRef
      = hread h0 imgRef := by
  have hn : imgRef + 1 ≤ h0.length := hr
  have main : preservesBelow (imgRef + 1) h0
      (enhanceHeap fns mode alphaNet doResize h0 imgRef).1 := by
    cases mode with
    | L =>
        exact pb_step_finalizeOut
          (pb_step_halloc
            (pb_step_mainPipeline
              (pb_step_halloc (pb_step_halloc (pb_refl _ h0) hn _) hn _)
              hn fns _)
            hn _)
          hn fns doResize _
    | RGB =>
        exact pb_step_finalizeOut
          (pb_step_mainPipeline
            (pb_step_halloc (pb_step_halloc (pb_refl _ h0) hn _) hn _)
            hn fns _)
          hn fns doResize _
    | RGBA =>
        cases alphaNet with
        | true =>
            exact pb_step_finalizeOut
              (pb_step_halloc_hwrite
                (pb_step_halloc
                  (pb_step_mainPipeline
                    (pb_step_mainPipeline
                      (pb_step_halloc
                        (pb_step_halloc
                          (pb_step_halloc (pb_refl _ h0) hn _) hn _)
                        hn _)
                      hn fns _)
                    hn fns _)
                  hn _)
                hn _ _)
              hn fns doResize _
        | false =>
            exact pb_step_finalizeOut
              (pb_step_halloc_hwrite
                (pb_step_halloc
                  (pb_step_mainPipeline
                    (pb_step_halloc (pb_step_halloc (pb_refl _ h0) hn _) hn _)
                    hn fns _)
                  hn _)
                hn _ _)
              hn fns doResize _
  exact main.2 imgRef (Nat.lt_succ_self imgRef)

/-- Witness for C10 on a concrete one-buffer heap, RGBA mode with the network
alpha strategy and the final resize enabled. -/
theorem C10_enhance_preserves_input_witness :
    (0 < cH0.length)
  ∧ hread (enhanceHeap cFns ImgMode.RGBA true true cH0 0).1 0 = hread cH0 0 :=
  ⟨by decide,
    C10_enhance_preserves_input cFns ImgMode.RGBA true true cH0 0 (by decide)⟩
